import Mathlib

/-!
# Verification of the Heart-Disease Dashboard filter-and-aggregate engine

Shallow embedding of `src/app.py` (the only source file).  Rows of the CSV
become `Record`; the sidebar selections become `Criteria`; the sequential
pandas filtering block (lines 50–56) becomes `filterData`; the six chart
aggregations become the functions `mos`/`mosPct`, `ct`/`rt`/`df_e`,
`heatTable`/`heatCell`, `bubble`, `fig5` and `lnFull`.

Modelling conventions:
* machine floats of pandas are modelled by `ℚ`; a pandas `NaN` result
  (e.g. an undefined Pearson correlation) is modelled by `Option`, with
  `none` standing for NaN / an absent cell;
* a data frame is a `List Record` (rows in order, duplicates allowed);
* `groupby` is modelled by taking the deduplicated list of observed keys
  and, per key, the sub-list of rows with that key; pandas drops rows whose
  group key is null (`dropna=True`), so grouping on the categorical
  `Age Group` column uses `filterMap` over `Option`;
* `Age Group` is a pandas Categorical, so with the default `observed=False`
  a `groupby` on it also emits rows for the unobserved categories: count 0
  in aggregation (1) (immaterial: a `0/total` proportion), NaN cells in
  aggregation (3) (immaterial: absent cells either way), and NaN rates in
  aggregation (6), which `lnFull` models explicitly with `none` entries
  over the full category × observed-chest-pain index;
* row order of `value_counts` (sorted by frequency) is not modelled; no
  claim concerns output ordering;
* Pearson correlation needs a square root, which is not rational, so the
  *squared* correlation `corrSq` is used: |corr| ∈ [0,1] ⟺ corr² ∈ [0,1],
  and corr is NaN exactly when `corrSq` is `none`.
-/

/-- A row of `heart_cleaned_fe.csv` after `load_data` added the
`Age Group` column.  Binary 0/1 columns are `Fin 2`, numeric columns `ℚ`,
categoricals `String`; `ageGroupLbl` is the derived `Age Group` value,
`none` modelling the null (`NaN`) category produced by `pd.cut` for ages
outside every bin. -/
structure Record where
  age : ℕ
  sexMale : Fin 2
  chest_pain_type : String
  resting_ecg : String
  exerciseAngina : Fin 2
  st_slope : String
  resting_bp : ℚ
  cholesterol : ℚ
  max_hr : ℚ
  oldpeak : ℚ
  fasting_bs : ℚ
  heart_disease : Fin 2
  ageGroupLbl : Option String
  deriving DecidableEq, Repr

/-- `pd.cut(df.age, bins=[29,40,50,60,70,max], labels=['30-40',...,'71+'])`:
right-closed, left-open integer bins `(29,40], (40,50], (50,60], (60,70],
(70,maxAge]`; a value in no bin gets the null category (`none`). -/
def ageGroupOf (maxAge a : ℕ) : Option String :=
  if 29 < a ∧ a ≤ 40 then some "30-40"
  else if 40 < a ∧ a ≤ 50 then some "41-50"
  else if 50 < a ∧ a ≤ 60 then some "51-60"
  else if 60 < a ∧ a ≤ 70 then some "61-70"
  else if 70 < a ∧ a ≤ maxAge then some "71+"
  else none

/-- The five age-group labels of `load_data`. -/
def ageLabels : List String := ["30-40", "41-50", "51-60", "61-70", "71+"]

/-- `df['Age Group'] = pd.cut(df.age, ...)` applied to one row:
the augmentation step of `load_data`. -/
def augment (maxAge : ℕ) (r : Record) : Record :=
  { r with ageGroupLbl := ageGroupOf maxAge r.age }

/-- A snapshot of the five sidebar selections.  `ecg = none` and
`sex = none` model the `'All'` choice; `sex = some true` models `'Male'`
(the code compares the `Sex: Male` column with `1` for Male, `0` for
Female); `ang` is the `Exercise-Induced Angina: Yes` checkbox. -/
structure Criteria where
  cp : List String
  ecg : Option String
  ag : List String
  ang : Bool
  sex : Option Bool
  deriving DecidableEq, Repr

/-- The filter block of `app.py` (lines 50–56), applied sequentially just
as in the source:
```
d = df[df.chest_pain_type.isin(cp)]
if ecg!='All': d = d[d.resting_ecg==ecg]
d = d[d['Age Group'].isin(ag)]
if ang:        d = d[d['Exercise-Induced Angina: Yes']==1]
if sex!='All': d = d[d['Sex: Male']==val]
```
`isin` on the null category is `False`, hence the `Option.any`. -/
def filterData (c : Criteria) (df : List Record) : List Record :=
  let d1 := df.filter (fun r : Record => r.chest_pain_type ∈ c.cp)
  let d2 := match c.ecg with
    | some e => d1.filter (fun r : Record => r.resting_ecg = e)
    | none => d1
  let d3 := d2.filter (fun r : Record => r.ageGroupLbl.any (fun g => g ∈ c.ag))
  let d4 := if c.ang then d3.filter (fun r : Record => r.exerciseAngina = 1) else d3
  match c.sex with
  | some b => d4.filter (fun r : Record => r.sexMale = (if b then 1 else 0))
  | none => d4

/-- The conjunction of the five row predicates, as one Boolean test. -/
def critPred (c : Criteria) (r : Record) : Bool :=
  (r.chest_pain_type ∈ c.cp) &&
  (match c.ecg with | some e => r.resting_ecg = e | none => true) &&
  (r.ageGroupLbl.any (fun g => g ∈ c.ag)) &&
  (!c.ang || r.exerciseAngina = 1) &&
  (match c.sex with | some b => r.sexMale = (if b then 1 else 0) | none => true)

/-- The sequential filter block equals one pass with the conjoined
predicate. -/
theorem filterData_eq_filter (c : Criteria) (df : List Record) :
    filterData c df = df.filter (critPred c) := by
  unfold filterData critPred
  cases c.ecg <;> cases hang : c.ang <;> cases c.sex <;>
    simp [hang, List.filter_filter] <;>
    refine List.filter_congr (fun r _ => ?_) <;>
    simp [Bool.and_assoc, Bool.and_comm, Bool.and_left_comm]

/-- The Boolean row test holds exactly when the five predicates of the
spec's filter contract hold. -/
theorem critPred_eq_true_iff (c : Criteria) (r : Record) :
    critPred c r = true ↔
      (r.chest_pain_type ∈ c.cp ∧
       (∀ e, c.ecg = some e → r.resting_ecg = e) ∧
       (∃ g, r.ageGroupLbl = some g ∧ g ∈ c.ag) ∧
       (c.ang = true → r.exerciseAngina = 1) ∧
       (∀ b, c.sex = some b → r.sexMale = (if b then 1 else 0))) := by
  unfold critPred
  cases c.ecg <;> cases c.ang <;> cases c.sex <;> cases r.ageGroupLbl <;>
    simp [Option.any] <;> tauto

/-- A sample augmented row (age 45, chest pain "ATA") used to instantiate
hypotheses of the verified properties on concrete data. -/
def sampleRow : Record :=
  { age := 45, sexMale := 1, chest_pain_type := "ATA", resting_ecg := "Normal",
    exerciseAngina := 0, st_slope := "Up", resting_bp := 130, cholesterol := 230,
    max_hr := 150, oldpeak := 1, fasting_bs := 0, heart_disease := 0,
    ageGroupLbl := some "41-50" }

/-- The all-permissive sidebar snapshot: every chest-pain type of the sample
data, ECG `'All'`, all five age groups, angina box unchecked, sex `'All'`. -/
def cAll : Criteria :=
  { cp := ["ATA", "NAP", "ASY", "TA"], ecg := none, ag := ageLabels,
    ang := false, sex := none }

/-- C1: the filtered table is a subset of the augmented table, and a row of
the augmented table survives the filter iff it satisfies the conjunction of
the five predicates: chest-pain type in the selected set; resting ECG equal
to the selection unless it is `'All'`; age group in the selected set;
exercise-induced angina equal to 1 when the checkbox is set; sex flag equal
to the selection unless it is `'All'`. -/
theorem filterData_subset_and_mem_iff (c : Criteria) (df : List Record) :
    filterData c df ⊆ df ∧
    ∀ r ∈ df, (r ∈ filterData c df ↔
      (r.chest_pain_type ∈ c.cp ∧
       (∀ e, c.ecg = some e → r.resting_ecg = e) ∧
       (∃ g, r.ageGroupLbl = some g ∧ g ∈ c.ag) ∧
       (c.ang = true → r.exerciseAngina = 1) ∧
       (∀ b, c.sex = some b → r.sexMale = (if b then 1 else 0)))) := by
  constructor
  · rw [filterData_eq_filter]
    exact (List.filter_sublist _).subset
  · intro r hr
    rw [filterData_eq_filter, List.mem_filter, ← critPred_eq_true_iff c r]
    simp [hr]

/-- C1 witness: the characterization evaluated on a concrete one-row table
and the all-permissive criteria. -/
theorem filterData_subset_and_mem_iff_witness :
    sampleRow ∈ filterData cAll [sampleRow] ↔
      (sampleRow.chest_pain_type ∈ cAll.cp ∧
       (∀ e, cAll.ecg = some e → sampleRow.resting_ecg = e) ∧
       (∃ g, sampleRow.ageGroupLbl = some g ∧ g ∈ cAll.ag) ∧
       (cAll.ang = true → sampleRow.exerciseAngina = 1) ∧
       (∀ b, cAll.sex = some b → sampleRow.sexMale = (if b then 1 else 0))) :=
  (filterData_subset_and_mem_iff cAll [sampleRow]).2 sampleRow (by simp)

/-- C9: the filter is idempotent — filtering the filtered table with the
same criteria returns it unchanged. -/
theorem filterData_idempotent (c : Criteria) (df : List Record) :
    filterData c (filterData c df) = filterData c df := by
  simp [filterData_eq_filter, List.filter_filter, Bool.and_self]

/-- C4 counterexample: a record of age 29 (the lowest bin edge) is assigned
the null category by `pd.cut` — it falls in none of the five bins, so the
age-binning is not total on all records. -/
theorem ageGroupOf_29_none : ageGroupOf 77 29 = none := by decide

/-- C4 (amended): every age between 30 and the dataset maximum falls in
exactly one of the five bins; each label is taken exactly on its contiguous
integer range, so the bins are non-overlapping and contiguous; in
particular age 45 is assigned `"41-50"`. -/
theorem ageGroupOf_bins (m a : ℕ) (h30 : 30 ≤ a) (hm : a ≤ m) :
    (∃ l, ageGroupOf m a = some l ∧ l ∈ ageLabels) ∧
    (ageGroupOf m a = some "30-40" ↔ 30 ≤ a ∧ a ≤ 40) ∧
    (ageGroupOf m a = some "41-50" ↔ 41 ≤ a ∧ a ≤ 50) ∧
    (ageGroupOf m a = some "51-60" ↔ 51 ≤ a ∧ a ≤ 60) ∧
    (ageGroupOf m a = some "61-70" ↔ 61 ≤ a ∧ a ≤ 70) ∧
    (ageGroupOf m a = some "71+" ↔ 71 ≤ a ∧ a ≤ m) ∧
    (a = 45 → ageGroupOf m a = some "41-50") := by
  unfold ageGroupOf
  split_ifs <;> simp_all [ageLabels] <;> omega

/-- C4 witness: the binning evaluated at age 45 with dataset maximum 77. -/
theorem ageGroupOf_bins_witness :
    (∃ l, ageGroupOf 77 45 = some l ∧ l ∈ ageLabels) ∧
    ageGroupOf 77 45 = some "41-50" :=
  ⟨(ageGroupOf_bins 77 45 (by decide) (by decide)).1,
   (ageGroupOf_bins 77 45 (by decide) (by decide)).2.2.2.2.2.2 rfl⟩

/-- C10: a record younger than 30 is given the null age-group category by
`load_data`, and consequently the age-group membership test of the filter
block rejects it under every criteria snapshot — whatever set of age groups
is selected, including all five. -/
theorem augment_young_excluded (m : ℕ) (r : Record) (h : r.age < 30) :
    (augment m r).ageGroupLbl = none ∧
    ∀ (c : Criteria) (d : List Record), augment m r ∉ filterData c d := by
  have hnone : ageGroupOf m r.age = none := by
    unfold ageGroupOf
    split_ifs <;> first | rfl | omega
  refine ⟨by simp [augment, hnone], ?_⟩
  intro c d hmem
  rw [filterData_eq_filter, List.mem_filter] at hmem
  have h2 := hmem.2
  simp [critPred, augment, hnone] at h2

/-- C10 witness: a concrete 28-year-old row is excluded even when every
sidebar control is fully permissive. -/
theorem augment_young_excluded_witness :
    (augment 77 { sampleRow with age := 28 }).ageGroupLbl = none ∧
    augment 77 { sampleRow with age := 28 } ∉
      filterData cAll [augment 77 { sampleRow with age := 28 }] :=
  ⟨(augment_young_excluded 77 { sampleRow with age := 28 } (by decide)).1,
   (augment_young_excluded 77 { sampleRow with age := 28 } (by decide)).2 cAll _⟩

/-- Numeric value of the binary `heart_disease` outcome column. -/
def hdQ (r : Record) : ℚ := ((r.heart_disease : ℕ) : ℚ)

/-- `['heart_disease'].mean()` over a list of rows. -/
def meanHD (l : List Record) : ℚ := (l.map hdQ).sum / l.length

/-- The observed `(Age Group, chest_pain_type)` keys, in order of first
occurrence: the index of `d.groupby(['Age Group','chest_pain_type'])`.
Rows whose `Age Group` is null are dropped, as pandas `groupby` drops null
group keys. -/
def cpKeys (d : List Record) : List (String × String) :=
  (d.filterMap (fun r => r.ageGroupLbl.map (fun g => (g, r.chest_pain_type)))).dedup

/-- `.size()` of one `(Age Group, chest_pain_type)` group. -/
def cpCount (d : List Record) (g c : String) : ℕ :=
  (d.filter (fun r : Record => r.ageGroupLbl = some g ∧ r.chest_pain_type = c)).length

/-- Aggregation (1), count column:
`mos = d.groupby(['Age Group','chest_pain_type']).size().reset_index(name='count')`. -/
def mos (d : List Record) : List ((String × String) × ℕ) :=
  (cpKeys d).map (fun k => (k, cpCount d k.1 k.2))

/-- `mos.groupby('Age Group')['count'].transform('sum')`: total of the
`count` column over the `mos` entries sharing one age group. -/
def mosGroupTotal (d : List Record) (g : String) : ℕ :=
  (((mos d).filter (fun e => e.1.1 = g)).map (fun e => e.2)).sum

/-- Aggregation (1), proportion column:
`mos['pct'] = mos['count']/mos.groupby('Age Group')['count'].transform('sum')`. -/
def mosPct (d : List Record) : List ((String × String) × ℚ) :=
  (mos d).map (fun e => (e.1, (e.2 : ℚ) / (mosGroupTotal d e.1.1 : ℚ)))

section Partition

variable {α : Type*} {κ : Type*} [DecidableEq κ]

/-- Partitioning a list by a key function: the sizes of the groups, summed
over any set covering the occurring keys, add up to the list length. -/
theorem length_eq_sum_filter_length (l : List α) (f : α → κ) (S : Finset κ)
    (hcov : ∀ a ∈ l, f a ∈ S) :
    ∑ k ∈ S, (l.filter (fun a => f a = k)).length = l.length := by
  induction l with
  | nil => simp
  | cons a t ih =>
    have ht : ∀ x ∈ t, f x ∈ S := fun x hx => hcov x (List.mem_cons_of_mem a hx)
    have hstep : ∀ k ∈ S, ((a :: t).filter (fun x => f x = k)).length
        = (if f a = k then 1 else 0) + (t.filter (fun x => f x = k)).length := by
      intro k _
      by_cases h : f a = k <;> simp [List.filter_cons, h, Nat.add_comm]
    rw [Finset.sum_congr rfl hstep, Finset.sum_add_distrib, ih ht,
      Finset.sum_ite_eq S (f a) (fun _ => 1),
      if_pos (hcov a (List.mem_cons_self a t))]
    simp [Nat.add_comm]

end Partition

/-- Filtering the `mos` table down to one age group keeps exactly the
entries built from the matching group keys. -/
theorem mos_filter_eq (d : List Record) (g : String) :
    (mos d).filter (fun e => e.1.1 = g)
      = ((cpKeys d).filter (fun k => k.1 = g)).map (fun k => (k, cpCount d k.1 k.2)) := by
  unfold mos
  rw [List.filter_map]
  rfl

/-- The `transform('sum')` denominator of aggregation (1) equals the row
count of the age group in the filtered table. -/
theorem mosGroupTotal_eq (d : List Record) (g : String) :
    mosGroupTotal d g = (d.filter (fun r : Record => r.ageGroupLbl = some g)).length := by
  unfold mosGroupTotal
  rw [mos_filter_eq, List.map_map]
  have hnd : ((cpKeys d).filter (fun k => k.1 = g)).Nodup :=
    (List.nodup_dedup _).filter _
  rw [← List.sum_toFinset _ hnd]
  have hcov : ∀ r ∈ d.filter (fun r : Record => r.ageGroupLbl = some g),
      (fun r : Record => (g, r.chest_pain_type)) r ∈
        ((cpKeys d).filter (fun k => k.1 = g)).toFinset := by
    intro r hr
    rw [List.mem_filter] at hr
    have hag : r.ageGroupLbl = some g := by
      have := hr.2; simpa using this
    rw [List.mem_toFinset, List.mem_filter]
    refine ⟨?_, by simp⟩
    unfold cpKeys
    rw [List.mem_dedup, List.mem_filterMap]
    exact ⟨r, hr.1, by rw [hag]; rfl⟩
  rw [← length_eq_sum_filter_length (d.filter (fun r : Record => r.ageGroupLbl = some g))
      (fun r : Record => (g, r.chest_pain_type)) _ hcov]
  refine Finset.sum_congr rfl (fun k hk => ?_)
  obtain ⟨k1, k2⟩ := k
  rw [List.mem_toFinset, List.mem_filter] at hk
  have hk1 : k1 = g := by have := hk.2; simpa using this
  subst hk1
  unfold cpCount
  rw [List.filter_filter]
  refine congrArg List.length ?_
  refine List.filter_congr (fun r _ => ?_)
  simp [Prod.ext_iff, Bool.and_comm]

/-- Aggregation (1) written as one map over the group keys. -/
theorem mosPct_eq (d : List Record) :
    mosPct d = (cpKeys d).map
      (fun k => (k, (cpCount d k.1 k.2 : ℚ) / (mosGroupTotal d k.1 : ℚ))) := by
  unfold mosPct mos
  rw [List.map_map]
  rfl

/-- Restriction of aggregation (1) to one age group. -/
theorem mosPct_filter_eq (d : List Record) (g : String) :
    (mosPct d).filter (fun e => e.1.1 = g)
      = ((cpKeys d).filter (fun k => k.1 = g)).map
          (fun k => (k, (cpCount d k.1 k.2 : ℚ) / (mosGroupTotal d k.1 : ℚ))) := by
  rw [mosPct_eq, List.filter_map]
  rfl

/-- C5: for every age group with at least one row in the filtered table,
the chest-pain proportions of aggregation (1) over that group sum to 1,
and each proportion equals the chest-pain category's row count divided by
the age group's total row count. -/
theorem mosPct_group_sum_one (d : List Record) (g : String)
    (h : ∃ r ∈ d, r.ageGroupLbl = some g) :
    ((((mosPct d).filter (fun e => e.1.1 = g)).map (fun e => e.2)).sum = 1) ∧
    (∀ e ∈ mosPct d, e.1.1 = g →
      e.2 = (cpCount d g e.1.2 : ℚ)
        / ((d.filter (fun r : Record => r.ageGroupLbl = some g)).length : ℚ)) := by
  obtain ⟨r0, hr0, hag0⟩ := h
  have hGpos : 0 < (d.filter (fun r : Record => r.ageGroupLbl = some g)).length :=
    List.length_pos_of_mem (List.mem_filter.mpr ⟨hr0, by simp [hag0]⟩)
  constructor
  · rw [mosPct_filter_eq, List.map_map]
    have hcongr : ∀ k ∈ (cpKeys d).filter (fun k => k.1 = g),
        ((fun e : (String × String) × ℚ => e.2) ∘
          (fun k : String × String =>
            (k, (cpCount d k.1 k.2 : ℚ) / (mosGroupTotal d k.1 : ℚ)))) k
          = (fun k : String × String => (cpCount d k.1 k.2 : ℚ)
              * ((mosGroupTotal d g : ℚ))⁻¹) k := by
      intro k hk
      have hk1 : k.1 = g := by
        have := (List.mem_filter.mp hk).2; simpa using this
      simp [hk1, div_eq_mul_inv]
    rw [List.map_congr_left hcongr, List.sum_map_mul_right]
    have hcast : ((cpKeys d).filter (fun k => k.1 = g)).map
          (fun k : String × String => (cpCount d k.1 k.2 : ℚ))
        = (((cpKeys d).filter (fun k => k.1 = g)).map
            (fun k : String × String => cpCount d k.1 k.2)).map (Nat.cast) := by
      rw [List.map_map]; rfl
    have hsum : (((cpKeys d).filter (fun k => k.1 = g)).map
        (fun k : String × String => cpCount d k.1 k.2)).sum = mosGroupTotal d g := by
      unfold mosGroupTotal
      rw [mos_filter_eq, List.map_map]
      rfl
    rw [hcast, ← Nat.cast_list_sum, hsum, mosGroupTotal_eq]
    exact mul_inv_cancel₀ (by exact_mod_cast Nat.pos_iff_ne_zero.mp hGpos)
  · intro e he hge
    rw [mosPct_eq] at he
    obtain ⟨k, hk, rfl⟩ := List.mem_map.mp he
    have hk1 : k.1 = g := by simpa using hge
    simp [hk1, mosGroupTotal_eq]

/-- C5 witness: one-row table, age group `"41-50"`; the single proportion
is `1/1` and sums to 1. -/
theorem mosPct_group_sum_one_witness :
    (∃ r ∈ [sampleRow], r.ageGroupLbl = some "41-50") ∧
    ((((mosPct [sampleRow]).filter (fun e => e.1.1 = "41-50")).map
        (fun e => e.2)).sum = 1) :=
  ⟨⟨sampleRow, by simp, rfl⟩,
   (mosPct_group_sum_one [sampleRow] "41-50" ⟨sampleRow, by simp, rfl⟩).1⟩

/-- The observed `resting_ecg` values (the index of aggregation (2); the
sort orders of `value_counts` / `groupby` are not modelled). -/
def ecgKeys (d : List Record) : List String :=
  (d.map (fun r => r.resting_ecg)).dedup

/-- Aggregation (2), count column: `ct = d.resting_ecg.value_counts()`. -/
def ct (d : List Record) : List (String × ℕ) :=
  (ecgKeys d).map
    (fun e => (e, (d.filter (fun r : Record => r.resting_ecg = e)).length))

/-- Aggregation (2), rate column:
`rt = d.groupby('resting_ecg')['heart_disease'].mean()` followed by
`rt['rate'] *= 100`. -/
def rt (d : List Record) : List (String × ℚ) :=
  (ecgKeys d).map
    (fun e => (e, meanHD (d.filter (fun r : Record => r.resting_ecg = e)) * 100))

/-- `df_e = ct.merge(rt, left_on='ecg', right_on='resting_ecg')`: the inner
join pairs each ECG value with its count and its rate. -/
def df_e (d : List Record) : List (String × ℕ × ℚ) :=
  (ecgKeys d).map
    (fun e => (e, (d.filter (fun r : Record => r.resting_ecg = e)).length,
      meanHD (d.filter (fun r : Record => r.resting_ecg = e)) * 100))

/-- The observed `(Age Group, st_slope)` keys of aggregation (3); rows with
a null age group are dropped by `groupby`. -/
def heatKeys (d : List Record) : List (String × String) :=
  (d.filterMap (fun r => r.ageGroupLbl.map (fun g => (g, r.st_slope)))).dedup

/-- Aggregation (3) before pivoting:
`heat = d.groupby(['Age Group','st_slope'])['heart_disease'].mean()`. -/
def heatTable (d : List Record) : List ((String × String) × ℚ) :=
  (heatKeys d).map
    (fun k => (k, meanHD (d.filter
      (fun r : Record => r.ageGroupLbl = some k.1 ∧ r.st_slope = k.2))))

/-- One cell of `heat.pivot(index='Age Group', columns='st_slope') * 100`:
`some` of the percentage where the combination was observed, `none` (an
absent cell / NaN) otherwise. -/
def heatCell (d : List Record) (g s : String) : Option ℚ :=
  ((heatTable d).find? (fun e => e.1 = (g, s))).map (fun e => e.2 * 100)

/-- `df4['Sex'] = df4['Sex: Male'].map({0:'Female',1:'Male'})`. -/
def sexLabel (x : Fin 2) : String := if x = 1 then "Male" else "Female"

/-- Aggregation (4):
`d.groupby(['Sex: Male','chest_pain_type']).agg(count=..., rate=...)`, with
`rate *= 100` and the decoded sex label. -/
def bubble (d : List Record) : List ((Fin 2 × String) × ℕ × ℚ × String) :=
  ((d.map (fun r => (r.sexMale, r.chest_pain_type))).dedup).map
    (fun k => (k,
      (d.filter (fun r : Record => r.sexMale = k.1 ∧ r.chest_pain_type = k.2)).length,
      meanHD (d.filter (fun r : Record => r.sexMale = k.1 ∧ r.chest_pain_type = k.2)) * 100,
      sexLabel k.1))

/-- Mean of a column, `sum/len` (pandas `mean`). -/
def qmean (l : List ℚ) : ℚ := l.sum / l.length

/-- Centered product sum `Σ (f r − mean f)·(g r − mean g)` over the rows:
the common numerator/denominator building block of Pearson correlation. -/
def centeredDot (d : List Record) (f g : Record → ℚ) : ℚ :=
  (d.map (fun r => (f r - qmean (d.map f)) * (g r - qmean (d.map g)))).sum

/-- Squared Pearson correlation of two columns, `none` where pandas `corr`
yields NaN (a zero variance, which includes tables with at most one row).
`|corr| = √corrSq`, so `|corr| ∈ [0,1] ⟺ corrSq ∈ [0,1]`. -/
def corrSq (d : List Record) (f g : Record → ℚ) : Option ℚ :=
  if centeredDot d f f = 0 ∨ centeredDot d g g = 0 then none
  else some ((centeredDot d f g) ^ 2 / (centeredDot d f f * centeredDot d g g))

/-- `cols = ['age','resting_bp','cholesterol','max_hr','oldpeak','fasting_bs']`. -/
def cols : List String :=
  ["age", "resting_bp", "cholesterol", "max_hr", "oldpeak", "fasting_bs"]

/-- Column selection by name, for the six numeric feature columns. -/
def featOf : String → Record → ℚ
  | "age" => fun r => (r.age : ℚ)
  | "resting_bp" => fun r => r.resting_bp
  | "cholesterol" => fun r => r.cholesterol
  | "max_hr" => fun r => r.max_hr
  | "oldpeak" => fun r => r.oldpeak
  | "fasting_bs" => fun r => r.fasting_bs
  | _ => fun _ => 0

/-- One correlation vector of aggregation (5):
`d[cols+['heart_disease']].corr()['heart_disease'].abs().drop('heart_disease')`,
recorded as the squared magnitude per feature (`none` = NaN). -/
def corrVec (d : List Record) : List (String × Option ℚ) :=
  cols.map (fun n => (n, corrSq d (featOf n) hdQ))

/-- The tagged result of aggregation (5): two sex-cohort vectors (radar
traces) or a single whole-table vector (polar bar). -/
inductive CorrView where
  | split (male female : List (String × Option ℚ))
  | single (v : List (String × Option ℚ))
  deriving DecidableEq, Repr

/-- `d['Sex: Male'].nunique()`. -/
def nSexes (d : List Record) : ℕ := (d.map (fun r => r.sexMale)).dedup.length

/-- Aggregation (5): the `if d['Sex: Male'].nunique()>1` branch of the
radar chart — two cohort vectors when both sexes occur, one vector
otherwise. -/
def fig5 (d : List Record) : CorrView :=
  if 1 < nSexes d then
    CorrView.split (corrVec (d.filter (fun r : Record => r.sexMale = 1)))
      (corrVec (d.filter (fun r : Record => r.sexMale = 0)))
  else CorrView.single (corrVec d)

/-- The observed-keys rows of aggregation (6)
(`ln = d.groupby(['Age Group','chest_pain_type'])['heart_disease'].mean()`):
a disease-rate fraction per observed (age group, chest pain) pair.  The
program's full `observed=False` output, which adds NaN rows for the
unobserved category combinations, is `lnFull` below. -/
def ln (d : List Record) : List ((String × String) × ℚ) :=
  (cpKeys d).map
    (fun k => (k, meanHD (d.filter
      (fun r : Record => r.ageGroupLbl = some k.1 ∧ r.chest_pain_type = k.2))))

/-- The observed `chest_pain_type` values. -/
def cpVals (d : List Record) : List String :=
  (d.map (fun r => r.chest_pain_type)).dedup

/-- The index that the default `observed=False` gives aggregation (6)'s
`groupby(['Age Group','chest_pain_type'])`: all five categories of the
Categorical `Age Group` crossed with the observed chest-pain values. -/
def lnKeys (d : List Record) : List (String × String) :=
  ageLabels.flatMap (fun g => (cpVals d).map (fun c => (g, c)))

/-- Aggregation (6) as the program computes it:
`d.groupby(['Age Group','chest_pain_type'])['heart_disease'].mean()` over
the `observed=False` index — the mean outcome fraction where the group is
populated, NaN (`none`) on the category-expansion rows whose group is
empty. -/
def lnFull (d : List Record) : List ((String × String) × Option ℚ) :=
  (lnKeys d).map (fun k =>
    (k, if d.filter (fun r : Record =>
          r.ageGroupLbl = some k.1 ∧ r.chest_pain_type = k.2) = []
        then none
        else some (meanHD (d.filter (fun r : Record =>
          r.ageGroupLbl = some k.1 ∧ r.chest_pain_type = k.2)))))

/-- The mean of the binary outcome over a non-empty group lies in `[0,1]`. -/
theorem meanHD_mem_unit (l : List Record) (h : l ≠ []) :
    0 ≤ meanHD l ∧ meanHD l ≤ 1 := by
  unfold meanHD
  have hlen : 0 < (l.length : ℚ) := by
    exact_mod_cast List.length_pos.mpr h
  have hsum0 : 0 ≤ (l.map hdQ).sum := by
    apply List.sum_nonneg
    intro x hx
    obtain ⟨r, _, rfl⟩ := List.mem_map.mp hx
    unfold hdQ
    positivity
  refine ⟨div_nonneg hsum0 hlen.le, ?_⟩
  rw [div_le_one hlen]
  calc (l.map hdQ).sum ≤ (l.map (fun _ => (1 : ℚ))).sum := by
        apply List.sum_le_sum
        intro r _
        unfold hdQ
        exact_mod_cast Fin.is_le r.heart_disease
    _ = l.length := by simp

/-- C7 counterexample: a reachable non-empty filtered table populating only
the age group `"41-50"`.  The `observed=False` category expansion makes
aggregation (6) emit NaN (`none`) rates for the four unpopulated age
groups, so not every rate value it produces lies in `[0,1]`. -/
theorem lnFull_single_row_nan :
    lnFull [sampleRow] = [(("30-40", "ATA"), none), (("41-50", "ATA"), some 0),
      (("51-60", "ATA"), none), (("61-70", "ATA"), none), (("71+", "ATA"), none)] := by
  norm_num [lnFull, lnKeys, cpVals, ageLabels, sampleRow, meanHD, hdQ]
  simp

/-- C7 (amended): for every non-empty filtered table, every disease rate of
aggregation (2) (`rate` column of `rt`, a percentage) lies in `[0,100]`,
and every *defined* (non-NaN) rate of aggregation (6) lies in `[0,1]`; the
category-expansion rows of aggregation (6) for unobserved (age group,
chest pain) pairs carry NaN rather than a value. -/
theorem rates_bounded (d : List Record) (_hd : d ≠ []) :
    (∀ p ∈ rt d, 0 ≤ p.2 ∧ p.2 ≤ 100) ∧
    (∀ p ∈ lnFull d, ∀ q, p.2 = some q → 0 ≤ q ∧ q ≤ 1) := by
  constructor
  · intro p hp
    obtain ⟨e, he, rfl⟩ := List.mem_map.mp hp
    have hne : d.filter (fun r : Record => r.resting_ecg = e) ≠ [] := by
      unfold ecgKeys at he
      rw [List.mem_dedup] at he
      obtain ⟨r, hr, rfl⟩ := List.mem_map.mp he
      exact List.ne_nil_of_mem (List.mem_filter.mpr ⟨hr, by simp⟩)
    obtain ⟨h0, h1⟩ := meanHD_mem_unit _ hne
    constructor
    · simpa using mul_nonneg h0 (by norm_num : (0:ℚ) ≤ 100)
    · calc meanHD (d.filter (fun r : Record => r.resting_ecg = e)) * 100
          ≤ 1 * 100 := by
            apply mul_le_mul_of_nonneg_right h1
            norm_num
        _ = 100 := by norm_num
  · intro p hp q hq
    obtain ⟨k, _, rfl⟩ := List.mem_map.mp hp
    by_cases hgrp : d.filter (fun r : Record =>
        r.ageGroupLbl = some k.1 ∧ r.chest_pain_type = k.2) = []
    · rw [if_pos hgrp] at hq
      cases hq
    · rw [if_neg hgrp] at hq
      obtain rfl := Option.some_inj.mp hq
      exact meanHD_mem_unit _ hgrp

/-- C7 witness: the one-row table; its single ECG rate is `0 ∈ [0,100]` and
the one defined trend rate, at `("41-50","ATA")`, is `0 ∈ [0,1]`. -/
theorem rates_bounded_witness :
    (0 ≤ (meanHD [sampleRow] * 100) ∧ meanHD [sampleRow] * 100 ≤ 100) ∧
    (0 ≤ (0 : ℚ) ∧ (0 : ℚ) ≤ 1) :=
  ⟨(rates_bounded [sampleRow] (by simp)).1
      ("Normal", meanHD [sampleRow] * 100) (by
        refine List.mem_map.mpr ⟨"Normal", ?_, ?_⟩
        · simp [ecgKeys, sampleRow]
        · simp [sampleRow]),
   (rates_bounded [sampleRow] (by simp)).2
      (("41-50", "ATA"), some 0)
      (by norm_num [lnFull, lnKeys, cpVals, ageLabels, sampleRow, meanHD, hdQ])
      0 rfl⟩

/-- Looking a key up in a table built by mapping over a key list finds the
entry of the first matching key. -/
theorem find?_map_key {κ β : Type*} [DecidableEq κ] (K : List κ) (m : κ → β) (k : κ) :
    ((K.map (fun x => (x, m x))).find? (fun e => e.1 = k))
      = if k ∈ K then some (k, m k) else none := by
  induction K with
  | nil => simp
  | cons x K ih =>
    by_cases h : x = k
    · subst h
      simp [List.find?_cons]
    · rw [List.map_cons, List.find?_cons]
      have : (decide ((x, m x).1 = k)) = false := by simpa using h
      rw [this, ih]
      simp [List.mem_cons, Ne.symm h]

/-- A pair is an observed key of aggregation (3) iff some filtered row
realizes it. -/
theorem mem_heatKeys (d : List Record) (g s : String) :
    (g, s) ∈ heatKeys d ↔ ∃ r ∈ d, r.ageGroupLbl = some g ∧ r.st_slope = s := by
  unfold heatKeys
  rw [List.mem_dedup, List.mem_filterMap]
  constructor
  · rintro ⟨r, hr, hmap⟩
    obtain ⟨g', hg', hpair⟩ := Option.map_eq_some'.mp hmap
    obtain ⟨rfl, rfl⟩ := Prod.mk.injEq .. ▸ hpair
    exact ⟨r, hr, hg', rfl⟩
  · rintro ⟨r, hr, hag, rfl⟩
    exact ⟨r, hr, by rw [hag]; rfl⟩

/-- C6: the pivoted heat matrix has, at `(g, s)`, `some` of the mean
outcome (as a percentage) over the filtered rows of age group `g` and ST
slope `s` whenever that combination is observed, and an absent cell
(`none`) — never the value zero — when it is not. -/
theorem heatCell_spec (d : List Record) (g s : String) :
    ((∃ r ∈ d, r.ageGroupLbl = some g ∧ r.st_slope = s) →
      heatCell d g s = some (meanHD (d.filter
        (fun r : Record => r.ageGroupLbl = some g ∧ r.st_slope = s)) * 100)) ∧
    ((¬ ∃ r ∈ d, r.ageGroupLbl = some g ∧ r.st_slope = s) →
      heatCell d g s = none) := by
  have hcell : heatCell d g s
      = if (g, s) ∈ heatKeys d
        then some (meanHD (d.filter
          (fun r : Record => r.ageGroupLbl = some g ∧ r.st_slope = s)) * 100)
        else none := by
    unfold heatCell heatTable
    rw [find?_map_key (heatKeys d)
      (fun k => meanHD (d.filter
        (fun r : Record => r.ageGroupLbl = some k.1 ∧ r.st_slope = k.2))) (g, s)]
    by_cases h : (g, s) ∈ heatKeys d <;> simp [h]
  constructor
  · intro h
    rw [hcell, if_pos ((mem_heatKeys d g s).mpr h)]
  · intro h
    rw [hcell, if_neg (fun hmem => h ((mem_heatKeys d g s).mp hmem))]

/-- C6 witness: on the one-row table the observed cell `("41-50","Up")`
carries the percentage and the unobserved cell `("30-40","Up")` is absent. -/
theorem heatCell_spec_witness :
    heatCell [sampleRow] "41-50" "Up" = some (meanHD (([sampleRow] : List Record).filter
      (fun r : Record => r.ageGroupLbl = some "41-50" ∧ r.st_slope = "Up")) * 100) ∧
    heatCell [sampleRow] "30-40" "Up" = none :=
  ⟨(heatCell_spec [sampleRow] "41-50" "Up").1 ⟨sampleRow, by simp, rfl, rfl⟩,
   (heatCell_spec [sampleRow] "30-40" "Up").2 (by simp [sampleRow])⟩

/-- A duplicate-free list whose elements are all equal has at most one
element. -/
theorem nodup_const_length_le {α : Type*} (l : List α) (a : α)
    (hnd : l.Nodup) (hall : ∀ x ∈ l, x = a) : l.length ≤ 1 := by
  match l, hnd, hall with
  | [], _, _ => simp
  | [x], _, _ => simp
  | x :: y :: t, hnd, hall =>
    exfalso
    have hx : x = a := hall x (by simp)
    have hy : y = a := hall y (by simp)
    rw [List.nodup_cons] at hnd
    exact hnd.1 (by rw [hx, ← hy]; exact List.mem_cons_self y t)

/-- C2: aggregation (5) yields the two-cohort result (independent male and
female correlation vectors) exactly when the filtered table holds more than
one distinct sex, the single whole-table vector when at most one sex is
present, and in particular an all-male filtered table yields exactly one
vector. -/
theorem fig5_cohorts (d : List Record) :
    (1 < nSexes d → fig5 d
      = CorrView.split (corrVec (d.filter (fun r : Record => r.sexMale = 1)))
          (corrVec (d.filter (fun r : Record => r.sexMale = 0)))) ∧
    (nSexes d ≤ 1 → fig5 d = CorrView.single (corrVec d)) ∧
    ((∀ r ∈ d, r.sexMale = 1) → fig5 d = CorrView.single (corrVec d)) := by
  refine ⟨fun h => by rw [fig5, if_pos h], fun h => by rw [fig5, if_neg (by omega)], ?_⟩
  intro hall
  have hle : nSexes d ≤ 1 := by
    unfold nSexes
    refine nodup_const_length_le _ 1 (List.nodup_dedup _) ?_
    intro x hx
    rw [List.mem_dedup] at hx
    obtain ⟨r, hr, rfl⟩ := List.mem_map.mp hx
    exact hall r hr
  rw [fig5, if_neg (by omega)]

/-- A second sample row: a 63-year-old female patient with heart disease. -/
def sampleRowF : Record :=
  { age := 63, sexMale := 0, chest_pain_type := "ASY", resting_ecg := "ST",
    exerciseAngina := 1, st_slope := "Flat", resting_bp := 145, cholesterol := 280,
    max_hr := 120, oldpeak := 2, fasting_bs := 1, heart_disease := 1,
    ageGroupLbl := some "61-70" }

/-- C2 witness: the all-male one-row table gives a single vector; the
mixed-sex two-row table gives the two cohort vectors. -/
theorem fig5_cohorts_witness :
    fig5 [sampleRow] = CorrView.single (corrVec [sampleRow]) ∧
    fig5 [sampleRow, sampleRowF]
      = CorrView.split
          (corrVec (([sampleRow, sampleRowF] : List Record).filter
            (fun r : Record => r.sexMale = 1)))
          (corrVec (([sampleRow, sampleRowF] : List Record).filter
            (fun r : Record => r.sexMale = 0))) :=
  ⟨(fig5_cohorts [sampleRow]).2.2 (by simp [sampleRow]),
   (fig5_cohorts [sampleRow, sampleRowF]).1 (by decide)⟩

/-- A mapped list sum as a sum over positions. -/
theorem list_map_sum_eq_fin_sum {α M : Type*} [AddCommMonoid M]
    (l : List α) (h : α → M) :
    (l.map h).sum = ∑ i : Fin l.length, h (l.get i) := by
  conv_lhs => rw [← List.ofFn_get l]
  rw [List.map_ofFn, List.sum_ofFn]
  rfl

/-- Cauchy–Schwarz for the centered product sums: the squared mixed sum is
at most the product of the two squared sums. -/
theorem centeredDot_sq_le (d : List Record) (f g : Record → ℚ) :
    (centeredDot d f g) ^ 2 ≤ centeredDot d f f * centeredDot d g g := by
  unfold centeredDot
  rw [list_map_sum_eq_fin_sum, list_map_sum_eq_fin_sum, list_map_sum_eq_fin_sum]
  have h := Finset.sum_mul_sq_le_sq_mul_sq Finset.univ
    (fun i : Fin d.length => f (d.get i) - qmean (d.map f))
    (fun i : Fin d.length => g (d.get i) - qmean (d.map g))
  simpa [pow_two] using h

/-- A centered square sum is nonnegative. -/
theorem centeredDot_self_nonneg (d : List Record) (f : Record → ℚ) :
    0 ≤ centeredDot d f f := by
  unfold centeredDot
  apply List.sum_nonneg
  intro x hx
  obtain ⟨r, _, rfl⟩ := List.mem_map.mp hx
  exact mul_self_nonneg _

/-- Whenever the squared Pearson correlation is defined it lies in `[0,1]`
(equivalently, the correlation magnitude lies in `[0,1]`). -/
theorem corrSq_mem_unit (d : List Record) (f g : Record → ℚ) (c : ℚ)
    (hc : corrSq d f g = some c) : 0 ≤ c ∧ c ≤ 1 := by
  unfold corrSq at hc
  by_cases h : centeredDot d f f = 0 ∨ centeredDot d g g = 0
  · rw [if_pos h] at hc
    cases hc
  · rw [if_neg h] at hc
    push_neg at h
    have hf : 0 < centeredDot d f f := lt_of_le_of_ne (centeredDot_self_nonneg d f) (Ne.symm h.1)
    have hg : 0 < centeredDot d g g := lt_of_le_of_ne (centeredDot_self_nonneg d g) (Ne.symm h.2)
    have hfg : 0 < centeredDot d f f * centeredDot d g g := mul_pos hf hg
    obtain rfl : _ = c := Option.some.injEq .. ▸ hc
    exact ⟨div_nonneg (sq_nonneg _) hfg.le, (div_le_one hfg).mpr (centeredDot_sq_le d f g)⟩

/-- C8 (amended): every entry of a correlation vector of aggregation (5)
that is defined (not NaN) has its squared magnitude — hence its magnitude —
in `[0,1]`. -/
theorem corrVec_defined_mem_unit (d : List Record) (p : String × Option ℚ)
    (hp : p ∈ corrVec d) (c : ℚ) (hc : p.2 = some c) : 0 ≤ c ∧ c ≤ 1 := by
  obtain ⟨n, _, rfl⟩ := List.mem_map.mp hp
  exact corrSq_mem_unit d (featOf n) hdQ c hc

/-- C8 counterexample: on a reachable one-row filtered table every one of
the six correlations of aggregation (5) is NaN (`none`), so the claim that
every computed magnitude lies in `[0,1]` fails — no magnitude is produced
at all. -/
theorem corrVec_single_row_nan :
    corrVec [sampleRow] = [("age", none), ("resting_bp", none), ("cholesterol", none),
      ("max_hr", none), ("oldpeak", none), ("fasting_bs", none)] := by
  norm_num [corrVec, cols, corrSq, centeredDot, qmean, featOf, hdQ, sampleRow]

/-- A third sample row, used to make the age/outcome correlation defined:
a 33-year-old male patient with heart disease. -/
def sampleRowB : Record :=
  { age := 33, sexMale := 1, chest_pain_type := "NAP", resting_ecg := "Normal",
    exerciseAngina := 0, st_slope := "Flat", resting_bp := 120, cholesterol := 200,
    max_hr := 170, oldpeak := 0, fasting_bs := 0, heart_disease := 1,
    ageGroupLbl := some "30-40" }

/-- C8 witness: on a two-row table the age/outcome correlation is defined
(squared magnitude `1`) and lies in `[0,1]`. -/
theorem corrVec_defined_mem_unit_witness :
    ("age", corrSq [sampleRow, sampleRowB] (featOf "age") hdQ)
        ∈ corrVec [sampleRow, sampleRowB] ∧
    corrSq [sampleRow, sampleRowB] (featOf "age") hdQ = some 1 ∧
    (0 ≤ (1 : ℚ) ∧ (1 : ℚ) ≤ 1) :=
  ⟨by simp [corrVec, cols], by
    norm_num [corrSq, centeredDot, qmean, featOf, hdQ, sampleRow, sampleRowB],
   corrVec_defined_mem_unit [sampleRow, sampleRowB]
     ("age", corrSq [sampleRow, sampleRowB] (featOf "age") hdQ)
     (by simp [corrVec, cols]) 1 (by
       norm_num [corrSq, centeredDot, qmean, featOf, hdQ, sampleRow, sampleRowB])⟩

/-- C3: an emptied chest-pain multiselect filters every table down to zero
rows, and each of the six aggregations maps the zero-row table to an empty
(or, for aggregation (5), minimal all-NaN) summary — total functions, so no
exception can arise. -/
theorem empty_filter_and_aggregations :
    (∀ (ecg : Option String) (ag : List String) (ang : Bool) (sx : Option Bool)
        (df : List Record), filterData ⟨[], ecg, ag, ang, sx⟩ df = []) ∧
    mos ([] : List Record) = [] ∧ mosPct ([] : List Record) = [] ∧
    ct ([] : List Record) = [] ∧ rt ([] : List Record) = [] ∧
    df_e ([] : List Record) = [] ∧
    heatTable ([] : List Record) = [] ∧
    (∀ g s, heatCell ([] : List Record) g s = none) ∧
    bubble ([] : List Record) = [] ∧
    fig5 ([] : List Record) = CorrView.single (cols.map (fun n => (n, none))) ∧
    ln ([] : List Record) = [] := by
  refine ⟨?_, rfl, rfl, rfl, rfl, rfl, rfl, fun g s => rfl, rfl, ?_, rfl⟩
  · intro ecg ag ang sx df
    rw [filterData_eq_filter]
    refine List.filter_eq_nil_iff.mpr (fun r _ => ?_)
    simp [critPred]
  · norm_num [fig5, nSexes, corrVec, cols, corrSq, centeredDot, qmean]
